import Mathlib

/-!
# Shallow embedding of the LC-3 virtual machine (src/lc3.c)

The C source is a fetch-decode-execute interpreter over a 65,536-word
memory and a ten-entry register file (`R0`..`R7`, `PC` at index 8,
`COND` at index 9), all `uint16_t`.  We embed machine words as `Nat`
with explicit `% 65536` reductions at every read of a `uint16_t`
storage location, and model the register file and memory as functions
`Nat → Nat` so that the source's out-of-bounds register access in the
`OP_STI` case (`reg[R_PC + pc_offset]`) can be rendered faithfully:
indices `8 + pc_offset < 10` read the actual array, anything larger is
C undefined behaviour and the step reports `undefined`.

`mem_read`/`mem_write` live in `utils.c`, which is not part of the
provided sources; they are modelled from the spec (§4.1).  Pending
stdin bytes are an explicit `input : List Nat` component of the state.

The `@{TRAP ...}` placeholders in the source elide the bodies of the
GETC/OUT/IN/PUTSP/HALT traps; a step reaching one of them returns
`stub`.  The `OP_TRAP` case of the outer `switch` has no `break`, so
after the inner trap `switch` finishes (including the "no matching
vector" path and the fully-written PUTS path) control falls through
into `case OP_RES: case OP_RTI: default: abort();` — the step returns
`aborted` carrying the bytes written to stdout during the step.
-/

namespace LC3

/-- Pointwise update of a function modelling a C array: `wset f i v`
is the array `f` with slot `i` overwritten by `v`. -/
def wset (f : Nat → Nat) (i v : Nat) : Nat → Nat :=
  fun j => if j = i then v else f j

/-- The machine state: the ten-entry `reg` array (index 8 = `R_PC`,
index 9 = `R_COND`), the 65,536-word `memory` array, and the pending
stdin bytes consumed by the memory-mapped keyboard registers. -/
structure Machine where
  reg : Nat → Nat
  mem : Nat → Nat
  input : List Nat

/-- Flag `FL_POS` (lc3.c line 37). -/
def FL_POS : Nat := 1
/-- Flag `FL_ZRO` (lc3.c line 38). -/
def FL_ZRO : Nat := 2
/-- Flag `FL_NEG` (lc3.c line 39). -/
def FL_NEG : Nat := 4

/-- Modelled from the spec: `mem_read` is defined in `utils.c`, which is
not among the provided sources.  Spec §4.1: "`mem_read(addr) -> word`:
if `addr == KBSR`, poll the terminal adapter; if a key is ready, set
`KBSR=0x8000`, load `KBDR` with the byte, else set `KBSR=0`.  Then
return `memory[addr]`."  KBSR is 0xFE00 and KBDR is 0xFE02 (§3); a key
is ready iff the pending-input list is nonempty, and consuming it
removes the byte.  Returns the word read together with the updated
machine. -/
def mem_read (m : Machine) (addr : Nat) : Nat × Machine :=
  let a := addr % 65536
  if a = 0xFE00 then
    match m.input with
    | b :: rest =>
        let mem2 := wset (wset m.mem 0xFE00 0x8000) 0xFE02 (b % 256)
        (mem2 a % 65536, { m with mem := mem2, input := rest })
    | [] =>
        let mem2 := wset m.mem 0xFE00 0
        (mem2 a % 65536, { m with mem := mem2 })
  else (m.mem a % 65536, m)

/-- Modelled from the spec: `mem_write` is defined in `utils.c`, which
is not among the provided sources.  Spec §4.1: "`mem_write(addr,
value)`: unconditional store." -/
def mem_write (m : Machine) (addr val : Nat) : Machine :=
  { m with mem := wset m.mem (addr % 65536) (val % 65536) }

/-- Function `sign_extend` (lc3.c lines 62–68): if bit `bit_count - 1` of `x` is
set, or in `0xFFFF << bit_count`; the result is truncated to 16 bits by
the `uint16_t` assignment. -/
def sign_extend (x : Nat) (bit_count : Nat) : Nat :=
  if (x >>> (bit_count - 1)) &&& 1 = 1 then
    (x ||| (0xFFFF <<< bit_count)) % 65536
  else x

/-- Function `update_flags` (lc3.c lines 70–84): set `reg[R_COND]` from the value
of `reg[r]`. -/
def update_flags (regf : Nat → Nat) (r : Nat) : Nat → Nat :=
  if regf r % 65536 = 0 then wset regf 9 FL_ZRO
  else if (regf r % 65536) >>> 15 ≠ 0 then wset regf 9 FL_NEG
  else wset regf 9 FL_POS

/-- The observable outcome of one trip through the interpreter loop. -/
inductive StepResult where
  | ok : Machine → StepResult
  | aborted : List Nat → StepResult
  | stub : Machine → StepResult
  | undefined : StepResult

/-- The `TRAP_PUTS` loop (lc3.c lines 270–277): starting from
`memory + reg[R_R0]`, emit the low byte of each word until a zero word
is reached.  Walking past the end of the 65,536-word array dereferences
an out-of-range pointer, which is C undefined behaviour, so that case
returns `none`; otherwise the list of bytes written to stdout. -/
def trapPuts (mem : Nat → Nat) (addr : Nat) : Option (List Nat) :=
  if _h : 65536 ≤ addr then none
  else if mem addr % 65536 = 0 then some []
  else
    match trapPuts mem (addr + 1) with
    | none => none
    | some l => some ((mem addr % 256) :: l)
termination_by 65536 - addr
decreasing_by omega

/-- Source `case OP_ADD` (lc3.c lines 127–144). -/
def execADD (m : Machine) (instr : Nat) : StepResult :=
  let r0 := (instr >>> 9) &&& 0x7
  let r1 := (instr >>> 6) &&& 0x7
  let imm_flag := (instr >>> 5) &&& 0x1
  let regs :=
    if imm_flag ≠ 0 then
      let imm5 := sign_extend (instr &&& 0x1F) 5
      wset m.reg r0 ((m.reg r1 % 65536 + imm5) % 65536)
    else
      let r2 := instr &&& 0x7
      wset m.reg r0 ((m.reg r1 % 65536 + m.reg r2 % 65536) % 65536)
  .ok { m with reg := update_flags regs r0 }

/-- Source `case OP_AND` (lc3.c lines 146–163). -/
def execAND (m : Machine) (instr : Nat) : StepResult :=
  let r0 := (instr >>> 9) &&& 0x7
  let r1 := (instr >>> 6) &&& 0x7
  let imm_flag := (instr >>> 5) &&& 0x1
  let regs :=
    if imm_flag ≠ 0 then
      let imm5 := sign_extend (instr &&& 0x1F) 5
      wset m.reg r0 (m.reg r1 % 65536 &&& imm5)
    else
      let r2 := instr &&& 0x7
      wset m.reg r0 (m.reg r1 % 65536 &&& m.reg r2 % 65536)
  .ok { m with reg := update_flags regs r0 }

/-- Source `case OP_NOT` (lc3.c lines 164–171).  The source stores `~r1` —
the bitwise complement of the register *index* `r1`, truncated to 16
bits by the `uint16_t` assignment — not `~reg[r1]`. -/
def execNOT (m : Machine) (instr : Nat) : StepResult :=
  let r0 := (instr >>> 9) &&& 0x7
  let r1 := (instr >>> 6) &&& 0x7
  let regs := wset m.reg r0 (0xFFFF ^^^ r1)
  .ok { m with reg := update_flags regs r0 }

/-- Source `case OP_BR` (lc3.c lines 172–183). -/
def execBR (m : Machine) (instr : Nat) : StepResult :=
  let n := (instr >>> 11) &&& 0x1
  let z := (instr >>> 10) &&& 0x1
  let p := (instr >>> 9) &&& 0x1
  if (n ≠ 0 ∧ m.reg 9 % 65536 = FL_NEG) ∨
     (z ≠ 0 ∧ m.reg 9 % 65536 = FL_ZRO) ∨
     (p ≠ 0 ∧ m.reg 9 % 65536 = FL_POS) then
    let pc_offset := sign_extend (instr &&& 0x1FF) 9
    .ok { m with reg := wset m.reg 8 ((m.reg 8 % 65536 + pc_offset) % 65536) }
  else .ok m

/-- Source `case OP_JMP` (lc3.c lines 184–188). -/
def execJMP (m : Machine) (instr : Nat) : StepResult :=
  let base_r := (instr >>> 6) &&& 0x7
  .ok { m with reg := wset m.reg 8 (m.reg base_r % 65536) }

/-- Source `case OP_JSR` (lc3.c lines 189–203): `reg[R_R7] = reg[R_PC]` first,
then either `PC ← reg[base_r]` or `PC ← pc_offset + reg[R_R7]` (reading
the just-saved R7). -/
def execJSR (m : Machine) (instr : Nat) : StepResult :=
  let regs1 := wset m.reg 7 (m.reg 8 % 65536)
  let flag := (instr >>> 11) &&& 0x1
  if flag = 0 then
    let base_r := (instr >>> 6) &&& 0x7
    .ok { m with reg := wset regs1 8 (regs1 base_r % 65536) }
  else
    let pc_offset := sign_extend (instr &&& 0x7FF) 11
    .ok { m with reg := wset regs1 8 ((pc_offset + regs1 7 % 65536) % 65536) }

/-- Source `case OP_LD` (lc3.c lines 204–211). -/
def execLD (m : Machine) (instr : Nat) : StepResult :=
  let r0 := (instr >>> 9) &&& 0x7
  let pc_offset := sign_extend (instr &&& 0x1FF) 9
  let p := mem_read m (m.reg 8 % 65536 + pc_offset)
  let regs := wset p.2.reg r0 p.1
  .ok { p.2 with reg := update_flags regs r0 }

/-- Source `case OP_LDI` (lc3.c lines 212–218). -/
def execLDI (m : Machine) (instr : Nat) : StepResult :=
  let r0 := (instr >>> 9) &&& 0x7
  let pc_offset := sign_extend (instr &&& 0x1FF) 9
  let p1 := mem_read m (m.reg 8 % 65536 + pc_offset)
  let p2 := mem_read p1.2 p1.1
  let regs := wset p2.2.reg r0 p2.1
  .ok { p2.2 with reg := update_flags regs r0 }

/-- Source `case OP_LDR` (lc3.c lines 220–228). -/
def execLDR (m : Machine) (instr : Nat) : StepResult :=
  let r0 := (instr >>> 9) &&& 0x7
  let base_r := (instr >>> 6) &&& 0x7
  let offset := sign_extend (instr &&& 0x3F) 6
  let p := mem_read m (m.reg base_r % 65536 + offset)
  let regs := wset p.2.reg r0 p.1
  .ok { p.2 with reg := update_flags regs r0 }

/-- Source `case OP_LEA` (lc3.c lines 229–236). -/
def execLEA (m : Machine) (instr : Nat) : StepResult :=
  let r0 := (instr >>> 9) &&& 0x7
  let pc_offset := sign_extend (instr &&& 0x1FF) 9
  let regs := wset m.reg r0 ((m.reg 8 % 65536 + pc_offset) % 65536)
  .ok { m with reg := update_flags regs r0 }

/-- Source `case OP_ST` (lc3.c lines 237–243).  The source passes `sr` — the
register *index* extracted from bits 11:9 — as the value to
`mem_write`, not `reg[sr]`. -/
def execST (m : Machine) (instr : Nat) : StepResult :=
  let sr := (instr >>> 9) &&& 0x7
  let pc_offset := sign_extend (instr &&& 0x1FF) 9
  .ok (mem_write m (m.reg 8 % 65536 + pc_offset) sr)

/-- Source `case OP_STI` (lc3.c lines 244–250).  The source computes the inner
address as `mem_read(reg[R_PC + pc_offset])`: it indexes the ten-entry
`reg` array at `8 + pc_offset` instead of reading memory at
`reg[R_PC] + pc_offset`.  Indices 8 (`pc_offset = 0`) and 9
(`pc_offset = 1`) read PC and COND; any larger index reads past the end
of `reg`, which is C undefined behaviour. -/
def execSTI (m : Machine) (instr : Nat) : StepResult :=
  let sr := (instr >>> 9) &&& 0x7
  let pc_offset := sign_extend (instr &&& 0x1FF) 9
  if 8 + pc_offset < 10 then
    let p := mem_read m (m.reg (8 + pc_offset) % 65536)
    .ok (mem_write p.2 p.1 (p.2.reg sr % 65536))
  else .undefined

/-- Source `case OP_STR` (lc3.c lines 251–258).  As in `OP_ST`, the source
passes the register *index* `sr` as the stored value, not `reg[sr]`. -/
def execSTR (m : Machine) (instr : Nat) : StepResult :=
  let sr := (instr >>> 9) &&& 0x7
  let base_r := (instr >>> 6) &&& 0x7
  let offset := sign_extend (instr &&& 0x3F) 6
  .ok (mem_write m (m.reg base_r % 65536 + offset) sr)

/-- Source `case OP_TRAP` (lc3.c lines 259–294): save `R7 ← PC`, dispatch on
the low byte.  GETC/OUT/IN/PUTSP/HALT bodies are `@{...}` placeholders
(`stub`).  PUTS runs its output loop and then — like the no-matching-
vector path — falls out of the inner `switch` and, the outer `case`
having no `break`, into `default: abort()`. -/
def execTRAP (m : Machine) (instr : Nat) : StepResult :=
  let m1 : Machine := { m with reg := wset m.reg 7 (m.reg 8 % 65536) }
  match instr &&& 0xFF with
  | 0x20 => .stub m1
  | 0x21 => .stub m1
  | 0x22 =>
      match trapPuts m1.mem (m1.reg 0 % 65536) with
      | none => .undefined
      | some out => .aborted out
  | 0x23 => .stub m1
  | 0x24 => .stub m1
  | 0x25 => .stub m1
  | _ => .aborted []

/-- The 16-way `switch (op)` dispatch (lc3.c lines 125–295), applied to
the post-fetch machine.  `OP_RES` (0xD), `OP_RTI` (0x8) and the
`default` arm call `abort()`. -/
def execOp (op : Nat) (m : Machine) (instr : Nat) : StepResult :=
  match op with
  | 0x0 => execBR m instr
  | 0x1 => execADD m instr
  | 0x2 => execLD m instr
  | 0x3 => execST m instr
  | 0x4 => execJSR m instr
  | 0x5 => execAND m instr
  | 0x6 => execLDR m instr
  | 0x7 => execSTR m instr
  | 0x9 => execNOT m instr
  | 0xA => execLDI m instr
  | 0xB => execSTI m instr
  | 0xC => execJMP m instr
  | 0xE => execLEA m instr
  | 0xF => execTRAP m instr
  | _ => .aborted []

/-- One iteration of the interpreter loop (lc3.c lines 119–295):
fetch `mem_read(reg[R_PC]++)`, decode the high nibble, dispatch. -/
def step (m : Machine) : StepResult :=
  let p := mem_read m (m.reg 8 % 65536)
  let m2 : Machine :=
    { p.2 with reg := wset p.2.reg 8 ((m.reg 8 % 65536 + 1) % 65536) }
  execOp (p.1 >>> 12) m2 p.1

/-- The machine state right after startup (lc3.c lines 110–116):
registers zero-initialized (C globals), then `reg[R_COND] = FL_ZRO`
and `reg[R_PC] = 0x3000`. -/
def initMachine (mem : Nat → Nat) (input : List Nat) : Machine :=
  { reg := fun i => if i = 9 then FL_ZRO else if i = 8 then 0x3000 else 0,
    mem := mem, input := input }

/-- Observation: register `i` of the machine a step produced, when the
step produced one. -/
def obsReg (r : StepResult) (i : Nat) : Option Nat :=
  match r with
  | .ok m => some (m.reg i % 65536)
  | _ => none

/-- Observation: the word at memory address `a` of the machine a step
produced, when the step produced one. -/
def obsMem (r : StepResult) (a : Nat) : Option Nat :=
  match r with
  | .ok m => some (m.mem (a % 65536) % 65536)
  | _ => none

/-- Observation: the bytes a step had written to stdout when it reached
`abort()`, when it did. -/
def abortOutput (r : StepResult) : Option (List Nat) :=
  match r with
  | .aborted out => some out
  | _ => none

/-- Two iterations of the interpreter loop, when the first completes
normally. -/
def step2 (m : Machine) : StepResult :=
  match step m with
  | .ok m1 => step m1
  | r => r

/-- Register `COND` (index 9) holds exactly one of the three one-bit flags. -/
def condOneHot (m : Machine) : Prop :=
  m.reg 9 = FL_POS ∨ m.reg 9 = FL_ZRO ∨ m.reg 9 = FL_NEG

/-- The one-hot flag property of the machine a step produced, when the
step produced one. -/
def condOneHotRes : StepResult → Prop
  | .ok m => condOneHot m
  | _ => True

/-! ## Basic lemmas about the embedding -/

theorem wset_self (f : Nat → Nat) (i v : Nat) : wset f i v i = v := by
  simp [wset]

theorem wset_other (f : Nat → Nat) (i v j : Nat) (h : j ≠ i) :
    wset f i v j = f j := by
  simp [wset, h]

theorem mem_read_reg (m : Machine) (a : Nat) : (mem_read m a).2.reg = m.reg := by
  simp only [mem_read]
  split
  · split <;> rfl
  · rfl

theorem mem_read_input (m : Machine) (a : Nat) (h : a % 65536 ≠ 0xFE00) :
    (mem_read m a).2 = m := by
  simp only [mem_read]
  split
  · omega
  · rfl

theorem mem_read_fst (m : Machine) (a : Nat) (h : a % 65536 ≠ 0xFE00) :
    (mem_read m a).1 = m.mem (a % 65536) % 65536 := by
  simp only [mem_read]
  split
  · omega
  · rfl

theorem mem_write_reg (m : Machine) (a v : Nat) :
    (mem_write m a v).reg = m.reg := rfl

theorem update_flags_nine (f : Nat → Nat) (r : Nat) :
    update_flags f r 9 = FL_POS ∨ update_flags f r 9 = FL_ZRO ∨
      update_flags f r 9 = FL_NEG := by
  unfold update_flags
  split_ifs <;> simp [wset_self, FL_POS, FL_ZRO, FL_NEG]

/-! ## Concrete machine states used as failing inputs -/

/-- State executing `NOT R0, R1` (instruction `0x907F`) at PC `0x3000`, with `reg[1] = 5`. -/
def mNOT : Machine :=
  { reg := fun i => if i = 9 then 2 else if i = 8 then 0x3000
             else if i = 1 then 5 else 0,
    mem := fun a => if a = 0x3000 then 0x907F else 0, input := [] }

/-- State executing `STI R0, #1` (instruction `0xB001`) at PC `0x3000`, with `COND = 2`,
`R0 = 0xABCD`, `mem[2] = 0x5000` and `mem[0x3002] = 0x6000`. -/
def mSTI : Machine :=
  { reg := fun i => if i = 9 then 2 else if i = 8 then 0x3000
             else if i = 0 then 0xABCD else 0,
    mem := fun a => if a = 0x3000 then 0xB001 else if a = 2 then 0x5000
             else if a = 0x3002 then 0x6000 else 0, input := [] }

/-- State executing `ST R0, #5` (instruction `0x3005`) at PC `0x3000` followed by
`LD R1, #4` (instruction `0x2204`) at `0x3001` — both resolve to target
address `0x3006` — with `reg[0] = 0x1234`. -/
def mSTLD : Machine :=
  { reg := fun i => if i = 9 then 2 else if i = 8 then 0x3000
             else if i = 0 then 0x1234 else 0,
    mem := fun a => if a = 0x3000 then 0x3005
             else if a = 0x3001 then 0x2204 else 0, input := [] }

/-- State executing `STR R2, R1, #0` (instruction `0x7440`) at PC `0x3000`, with
`reg[1] = 0x4000` and `reg[2] = 7`. -/
def mSTR : Machine :=
  { reg := fun i => if i = 9 then 2 else if i = 8 then 0x3000
             else if i = 1 then 0x4000 else if i = 2 then 7 else 0,
    mem := fun a => if a = 0x3000 then 0x7440 else 0, input := [] }

/-- State executing `TRAP 0x26` (instruction `0xF026`, an unknown trap vector) at PC
`0x3000`. -/
def mTRAPX : Machine :=
  { reg := fun i => if i = 9 then 2 else if i = 8 then 0x3000 else 0,
    mem := fun a => if a = 0x3000 then 0xF026 else 0, input := [] }

/-! ## Claims -/

/-- C1: the claim says a NOT instruction sets `reg[DR]` to the 16-bit
complement of the value `reg[SR1]`.  The code (lc3.c line 168) instead
stores `~r1`, the complement of the register *index*: executing
`NOT R0, R1` with `reg[1] = 5` leaves `reg[0] = 0xFFFE` (the 16-bit
complement of the index 1), not `0xFFFA = ~5 & 0xFFFF` as the claim
requires. -/
theorem not_writes_complement_of_register_index :
    obsReg (step mNOT) 0 = some 0xFFFE ∧ (0xFFFE : Nat) ≠ 0xFFFA := by
  constructor
  · decide
  · decide

/-- C2: the claim says STI writes `reg[SR]` to `mem[mem[PC +
sext(offset, 9)]]`.  The code (lc3.c line 248) computes the inner
address as `reg[R_PC + pc_offset]`, indexing the register file: with
offset 1 it reads `reg[9]` (COND) instead of `mem[PC + 1]`.  Here
`COND = 2`, `mem[2] = 0x5000`, `mem[PC + 1] = mem[0x3002] = 0x6000`:
the code writes `R0 = 0xABCD` to address `0x5000` and leaves the
claimed target `0x6000` untouched. -/
theorem sti_indexes_registers_not_memory :
    obsMem (step mSTI) 0x5000 = some 0xABCD ∧
      obsMem (step mSTI) 0x6000 = some 0 := by
  constructor
  · decide
  · decide

/-- C3: the claim says ST followed by LD from the same PC-relative
address loads the value `reg[SR]` held at the ST.  The ST case
(lc3.c line 241) passes the register *index* `sr` to `mem_write`, not
`reg[sr]`: storing `R0 = 0x1234` and loading the same address back into
`R1` yields `0`, the index of `R0`, not `0x1234`. -/
theorem st_then_ld_loads_register_index :
    obsReg (step2 mSTLD) 1 = some 0 ∧ (0 : Nat) ≠ 0x1234 := by
  constructor
  · decide
  · decide

/-- C4: the claim says STR stores the value `reg[SR]`.  The code
(lc3.c line 256) passes the register *index* `sr` to `mem_write`:
executing `STR R2, R1, #0` with `reg[1] = 0x4000` and `reg[2] = 7`
leaves `mem[0x4000] = 2` (the index of `R2`), not `7`. -/
theorem str_stores_register_index :
    obsMem (step mSTR) 0x4000 = some 2 ∧ (2 : Nat) ≠ 7 := by
  constructor
  · decide
  · decide

/-- C5: the claim says a TRAP with an unknown vector is a no-op (apart
from the `R7 ← PC` save) and the interpreter continues with the next
fetch.  The `OP_TRAP` case of the `switch` (lc3.c lines 259–294) has no
`break`: after the inner trap dispatch matches no vector, control falls
through into `case OP_RES: case OP_RTI: default: abort();`.  Executing
`TRAP 0x26` reaches `abort()` (with no bytes written) instead of
producing a next state. -/
theorem unknown_trap_vector_aborts :
    abortOutput (step mTRAPX) = some [] ∧ obsReg (step mTRAPX) 8 = none := by
  constructor
  · decide
  · decide

/-- C9: `sign_extend(v, n)` for `1 ≤ n ≤ 16` and `v < 2^n` returns `v`
when bit `n-1` of `v` is clear, and `(v ||| (0xFFFF <<< n))` truncated
to 16 bits when bit `n-1` is set. -/
theorem sign_extend_spec (v n : Nat) (h1 : 1 ≤ n) (h16 : n ≤ 16)
    (hv : v < 2 ^ n) :
    (v.testBit (n - 1) = false → sign_extend v n = v) ∧
    (v.testBit (n - 1) = true →
      sign_extend v n = (v ||| (0xFFFF <<< n)) % 65536) := by
  have hbit : ((v >>> (n - 1)) &&& 1 = 1) ↔ v.testBit (n - 1) = true := by
    rw [Nat.and_one_is_mod, Nat.shiftRight_eq_div_pow, Nat.testBit_to_div_mod,
      decide_eq_true_eq]
  constructor
  · intro hfalse
    rw [sign_extend,
      if_neg (fun hc => Bool.noConfusion ((hbit.mp hc).symm.trans hfalse))]
  · intro htrue
    rw [sign_extend, if_pos (hbit.mpr htrue)]

/-- Closed instance of `sign_extend_spec`: `sign_extend 0x1FF 9`
produces `0xFFFF`, i.e. `(0x1FF ||| (0xFFFF <<< 9)) % 65536`. -/
theorem sign_extend_spec_witness :
    sign_extend 0x1FF 9 = (0x1FF ||| (0xFFFF <<< 9)) % 65536 :=
  (sign_extend_spec 0x1FF 9 (by decide) (by decide) (by decide)).2 (by decide)

/-! ## One-hot condition flags: preservation by every opcode handler -/

theorem condOneHot_execADD (m : Machine) (instr : Nat) :
    condOneHotRes (execADD m instr) :=
  update_flags_nine _ _

theorem condOneHot_execAND (m : Machine) (instr : Nat) :
    condOneHotRes (execAND m instr) :=
  update_flags_nine _ _

theorem condOneHot_execNOT (m : Machine) (instr : Nat) :
    condOneHotRes (execNOT m instr) :=
  update_flags_nine _ _

theorem condOneHot_execLD (m : Machine) (instr : Nat) :
    condOneHotRes (execLD m instr) :=
  update_flags_nine _ _

theorem condOneHot_execLDI (m : Machine) (instr : Nat) :
    condOneHotRes (execLDI m instr) :=
  update_flags_nine _ _

theorem condOneHot_execLDR (m : Machine) (instr : Nat) :
    condOneHotRes (execLDR m instr) :=
  update_flags_nine _ _

theorem condOneHot_execLEA (m : Machine) (instr : Nat) :
    condOneHotRes (execLEA m instr) :=
  update_flags_nine _ _

theorem condOneHot_execBR (m : Machine) (instr : Nat) (h : condOneHot m) :
    condOneHotRes (execBR m instr) := by
  unfold execBR
  dsimp only
  split
  · show condOneHot _
    unfold condOneHot at h ⊢
    simpa [wset_other _ _ _ _ (by omega : (9 : Nat) ≠ 8)] using h
  · exact h

theorem condOneHot_execJMP (m : Machine) (instr : Nat) (h : condOneHot m) :
    condOneHotRes (execJMP m instr) := by
  show condOneHot _
  unfold condOneHot at h ⊢
  simpa [wset_other _ _ _ _ (by omega : (9 : Nat) ≠ 8)] using h

theorem condOneHot_execJSR (m : Machine) (instr : Nat) (h : condOneHot m) :
    condOneHotRes (execJSR m instr) := by
  unfold execJSR
  dsimp only
  split <;>
    · show condOneHot _
      unfold condOneHot at h ⊢
      simpa [wset_other _ _ _ _ (by omega : (9 : Nat) ≠ 8),
        wset_other _ _ _ _ (by omega : (9 : Nat) ≠ 7)] using h

theorem condOneHot_execST (m : Machine) (instr : Nat) (h : condOneHot m) :
    condOneHotRes (execST m instr) := by
  show condOneHot _
  unfold condOneHot at h ⊢
  simpa [mem_write_reg] using h

theorem condOneHot_execSTR (m : Machine) (instr : Nat) (h : condOneHot m) :
    condOneHotRes (execSTR m instr) := by
  show condOneHot _
  unfold condOneHot at h ⊢
  simpa [mem_write_reg] using h

theorem condOneHot_execSTI (m : Machine) (instr : Nat) (h : condOneHot m) :
    condOneHotRes (execSTI m instr) := by
  unfold execSTI
  dsimp only
  split
  · show condOneHot _
    unfold condOneHot at h ⊢
    simpa [mem_write_reg, mem_read_reg] using h
  · trivial

theorem condOneHot_execTRAP (m : Machine) (instr : Nat) :
    condOneHotRes (execTRAP m instr) := by
  unfold execTRAP
  dsimp only
  split <;> first | trivial | (split <;> trivial)

/-- The post-fetch machine (memory possibly touched by the keyboard
poll, PC incremented) inherits the one-hot flag property. -/
theorem condOneHot_fetch (m : Machine) (a v : Nat) (h : condOneHot m) :
    condOneHot
      { (mem_read m a).2 with reg := wset (mem_read m a).2.reg 8 v } := by
  unfold condOneHot at h ⊢
  simpa [wset_other _ _ _ _ (by omega : (9 : Nat) ≠ 8), mem_read_reg] using h

/-- Preservation of the one-hot flag property by the opcode dispatch. -/
theorem condOneHot_execOp (op : Nat) (m : Machine) (instr : Nat)
    (h : condOneHot m) : condOneHotRes (execOp op m instr) := by
  unfold execOp
  split
  · exact condOneHot_execBR _ _ h
  · exact condOneHot_execADD _ _
  · exact condOneHot_execLD _ _
  · exact condOneHot_execST _ _ h
  · exact condOneHot_execJSR _ _ h
  · exact condOneHot_execAND _ _
  · exact condOneHot_execLDR _ _
  · exact condOneHot_execSTR _ _ h
  · exact condOneHot_execNOT _ _
  · exact condOneHot_execLDI _ _
  · exact condOneHot_execSTI _ _ h
  · exact condOneHot_execJMP _ _ h
  · exact condOneHot_execLEA _ _
  · exact condOneHot_execTRAP _ _
  · trivial

/-- C6: at startup `COND` is initialized to `FL_ZRO`, and every
iteration of the interpreter loop that produces a next state leaves
`COND` equal to exactly one of `FL_POS`, `FL_ZRO`, `FL_NEG` — the
handlers either set it through `update_flags` (which always stores a
single flag) or do not touch it. -/
theorem cond_flags_one_hot :
    (∀ mem input, condOneHot (initMachine mem input)) ∧
    (∀ m : Machine, condOneHot m → condOneHotRes (step m)) := by
  constructor
  · intro mem input
    right; left; rfl
  · intro m h
    exact condOneHot_execOp _ _ _ (condOneHot_fetch m _ _ h)

/-- Closed instance of `cond_flags_one_hot`: the initial machine on an
image holding `ADD R0, R0, #1` at `0x3000` satisfies the invariant, and
so does the machine produced by stepping it. -/
theorem cond_flags_one_hot_witness :
    condOneHot
        (initMachine (fun a => if a = 0x3000 then 0x1021 else 0) []) ∧
    condOneHotRes
        (step (initMachine (fun a => if a = 0x3000 then 0x1021 else 0) [])) :=
  ⟨cond_flags_one_hot.1 _ _,
   cond_flags_one_hot.2 _ (cond_flags_one_hot.1 _ _)⟩

/-- C7: when the fetched instruction has opcode 0x4 (JSR) and bit 11
set, the step saves the post-increment PC into R7 and then sets the new
PC to that saved R7 plus `sext(instr[10:0], 11)`, all mod 2^16. -/
theorem jsr_long_saves_r7_then_jumps (m : Machine) (instr : Nat)
    (hfetch : (mem_read m (m.reg 8 % 65536)).1 = instr)
    (hop : instr >>> 12 = 0x4) (hbit : (instr >>> 11) &&& 1 = 1) :
    obsReg (step m) 7 = some ((m.reg 8 % 65536 + 1) % 65536) ∧
    obsReg (step m) 8 =
      some ((m.reg 8 % 65536 + 1 + sign_extend (instr &&& 0x7FF) 11) % 65536) := by
  unfold step
  dsimp only
  rw [hfetch, hop]
  simp only [execOp]
  unfold execJSR
  dsimp only
  rw [if_neg (by omega)]
  constructor
  · simp only [obsReg, wset]
    norm_num
  · simp only [obsReg, wset]
    norm_num
    omega

/-- Closed instance of `jsr_long_saves_r7_then_jumps`: executing
`0x4802` (JSR #2) fetched at PC = 0x3000 leaves R7 = 0x3001 and
PC = 0x3003 — spec §8 scenario 7. -/
theorem jsr_long_witness :
    obsReg (step (initMachine (fun a => if a = 0x3000 then 0x4802 else 0) [])) 7 =
      some 0x3001 ∧
    obsReg (step (initMachine (fun a => if a = 0x3000 then 0x4802 else 0) [])) 8 =
      some 0x3003 := by
  have h := jsr_long_saves_r7_then_jumps
    (initMachine (fun a => if a = 0x3000 then 0x4802 else 0) []) 0x4802
    (by decide) (by decide) (by decide)
  exact ⟨h.1.trans (by decide), h.2.trans (by decide)⟩

/-- C8: with `R0 = 0x7FFF`, fetching the instruction `0x1021`
(ADD R0, R0, #1) wraps the sum modulo 2^16, leaving `R0 = 0x8000`, and
sets the condition flags from the two's-complement sign of the result:
`COND = FL_NEG`. -/
theorem add_wraps_and_sets_negative (m : Machine)
    (hfetch : (mem_read m (m.reg 8 % 65536)).1 = 0x1021)
    (hr0 : m.reg 0 % 65536 = 0x7FFF) :
    obsReg (step m) 0 = some 0x8000 ∧ obsReg (step m) 9 = some FL_NEG := by
  unfold step
  dsimp only
  rw [hfetch, (by decide : (0x1021 : Nat) >>> 12 = 1)]
  simp only [execOp]
  unfold execADD
  dsimp only
  rw [(by decide : (0x1021 : Nat) >>> 9 &&& 0x7 = 0),
      (by decide : (0x1021 : Nat) >>> 6 &&& 0x7 = 0),
      (by decide : (0x1021 : Nat) >>> 5 &&& 0x1 = 1),
      (by decide : sign_extend (0x1021 &&& 0x1F) 5 = 1),
      if_pos (by decide : (1 : Nat) ≠ 0)]
  simp only [obsReg]
  rw [wset_other _ _ _ _ (by omega : (0 : Nat) ≠ 8), mem_read_reg, hr0,
      (by norm_num : ((0x7FFF : Nat) + 1) % 65536 = 32768)]
  unfold update_flags
  rw [wset_self]
  norm_num
  rw [if_neg (by decide : ¬ (32768 : Nat) >>> 15 = 0)]
  constructor
  · rw [wset_other _ _ _ _ (by omega : (0 : Nat) ≠ 9), wset_self]
  · rw [wset_self]
    norm_num [FL_NEG]

/-- Closed instance of `add_wraps_and_sets_negative`: spec §8
scenario 2 run from a machine whose image holds `0x1021` at `0x3000`
and whose `R0` starts at `0x7FFF`. -/
theorem add_wraps_witness :
    obsReg (step
      { reg := fun i => if i = 9 then 2 else if i = 8 then 0x3000
                 else if i = 0 then 0x7FFF else 0,
        mem := fun a => if a = 0x3000 then 0x1021 else 0, input := [] }) 0 =
      some 0x8000 ∧
    obsReg (step
      { reg := fun i => if i = 9 then 2 else if i = 8 then 0x3000
                 else if i = 0 then 0x7FFF else 0,
        mem := fun a => if a = 0x3000 then 0x1021 else 0, input := [] }) 9 =
      some FL_NEG :=
  add_wraps_and_sets_negative _ (by decide) (by decide)

/-- Unrolling of the PUTS loop: if `z` is an address bounded by 0xFFFF
holding a zero word and every word from `r0` up to `z` is nonzero, the
loop starting at `r0` emits the low bytes of `mem[r0..z-1]`.  Induction
is on the distance `z - r0`. -/
theorem trapPuts_run (mem : Nat → Nat) (z : Nat) (hz : z ≤ 0xFFFF)
    (hzero : mem z % 65536 = 0) :
    ∀ k r0, z - r0 = k → r0 ≤ z →
      (∀ y, r0 ≤ y → y < z → mem y % 65536 ≠ 0) →
      trapPuts mem r0 =
        some ((List.range' r0 (z - r0)).map fun a => mem a % 256) := by
  intro k
  induction k with
  | zero =>
      intro r0 hk hle hleast
      have hrz : r0 = z := by omega
      subst hrz
      rw [trapPuts, dif_neg (by omega), if_pos hzero]
      simp
  | succ n ih =>
      intro r0 hk hle hleast
      have h1 : r0 < z := by omega
      have h2 : mem r0 % 65536 ≠ 0 := hleast r0 le_rfl h1
      rw [trapPuts, dif_neg (by omega), if_neg h2,
        ih (r0 + 1) (by omega) (by omega)
          (fun y hy hlt => hleast y (by omega) hlt)]
      have hsplit : z - r0 = (z - (r0 + 1)) + 1 := by omega
      rw [hsplit, List.range'_succ]
      rfl

/-- C10: if some address `z` with `R0 ≤ z ≤ 0xFFFF` holds a zero word,
the PUTS loop terminates and the bytes written to stdout are exactly
the low bytes of `memory[R0]`, `memory[R0+1]`, …, up to (excluding) the
least zero-word address `z`, in order.  The loop (lc3.c lines 271–277)
only reads memory through a local cursor and writes through `putc`, so
registers and memory are untouched: in the model `trapPuts` is a pure
function of the memory and the start address and returns only the
output. -/
theorem trapPuts_outputs_until_zero (mem : Nat → Nat) (r0 z : Nat)
    (hle : r0 ≤ z) (hz : z ≤ 0xFFFF) (hzero : mem z % 65536 = 0)
    (hleast : ∀ y, r0 ≤ y → y < z → mem y % 65536 ≠ 0) :
    trapPuts mem r0 =
      some ((List.range' r0 (z - r0)).map fun a => mem a % 256) :=
  trapPuts_run mem z hz hzero _ r0 rfl hle hleast

/-- Spec §8 scenario 6: `memory[0x4000..0x4003] = {0x48, 0x49, 0x21,
0x0000}`. -/
def memHI : Nat → Nat := fun a =>
  if a = 0x4000 then 0x48 else if a = 0x4001 then 0x49
  else if a = 0x4002 then 0x21 else 0

/-- Closed instance of `trapPuts_outputs_until_zero`: PUTS on the
`HI!` image starting at `R0 = 0x4000` emits exactly `0x48 0x49 0x21`. -/
theorem trapPuts_outputs_witness :
    trapPuts memHI 0x4000 = some [0x48, 0x49, 0x21] := by
  have h := trapPuts_outputs_until_zero memHI 0x4000 0x4003 (by omega)
    (by omega) (by decide)
    (fun y h1 h2 => by interval_cases y <;> decide)
  exact h.trans (by decide)

end LC3
